import Mathlib

/-!
Verification of the layered layout engine (d3-dag core) against its
natural-language specification.  The development shallowly embeds the
parts of the source the claims touch:

* the simplex layering operator (its ILP objective coefficients, its
  error branch, and its fluent `rank` setter);
* the longest-path layering operator (`longestPathCall`);
* the optimal decrossing operator's size gate and `large` setter;
* the quadratic coordinate operator's `curve` setter and getter;
* the sugiyama orchestrator's default configuration, `defaultNodeSize`,
  `wrapNodeSizeAccessor`, and its `size` setter;
* the `stratify` dag builder's error conditions.

Machine numbers of the source (JavaScript numbers) are embedded as `ℚ`
where sizes and weights flow, and as `Int`/`Nat` where the source only
ever holds integers (layers, counts, ids).  Nodes are identified by
natural-number ids.  External collaborators that are not part of the
sources (the ILP solver from `../../simplex`, `verifyDag`/`verifyId`
from `./verify`) are taken as oracle parameters of the embedded
functions, so every theorem about them quantifies over the collaborator's
behavior.
-/

namespace D3dag

/-- Minimal stand-in for a user dag node: the payload is irrelevant to the
claims, so a node is just its id. -/
structure DagNode where
  id : Nat
deriving DecidableEq, Repr

/-- A dag link as the layering operators see it: source and target node ids
and the multi-edge `count` (the source keeps one link per node pair and a
positive count of parallel edges). -/
structure SLink where
  source : Nat
  target : Nat
  count : Nat
deriving DecidableEq, Repr

/-! ## Simplex layering (layering/simplex): objective coefficients

The source builds one ILP variable per node.  Iterating over every link,
it adds `count` to the source node's objective coefficient and subtracts
`count` from the target node's coefficient, then asks the solver to
maximize the objective. -/

/-- The per-node objective coefficient the simplex layering builds: the sum,
over the links, of `count` when the node is the link's source minus `count`
when it is the link's target. -/
def optCoeff (links : List SLink) (n : Nat) : Int :=
  (links.map (fun l =>
    (if l.source = n then (l.count : Int) else 0)
      - (if l.target = n then (l.count : Int) else 0))).sum

/-- The ILP objective for a layer assignment `x`: the sum over the dag's
nodes of the node's objective coefficient times its layer. -/
def simplexObjective (nodes : List Nat) (links : List SLink) (x : Nat → Int) : Int :=
  (nodes.map (fun n => optCoeff links n * x n)).sum

/-- The total weighted edge span of a layer assignment: the sum over links of
`(layer target - layer source) * count`. -/
def totalSpan (links : List SLink) (x : Nat → Int) : Int :=
  (links.map (fun l => (x l.target - x l.source) * (l.count : Int))).sum

lemma sum_map_add_int {α : Type} (l : List α) (f g : α → Int) :
    (l.map (fun a => f a + g a)).sum = (l.map f).sum + (l.map g).sum := by
  induction l with
  | nil => simp
  | cons a t ih => simp only [List.map_cons, List.sum_cons, ih]; ring

lemma sum_map_sub_int {α : Type} (l : List α) (f g : α → Int) :
    (l.map (fun a => f a - g a)).sum = (l.map f).sum - (l.map g).sum := by
  induction l with
  | nil => simp
  | cons a t ih => simp only [List.map_cons, List.sum_cons, ih]; ring

lemma sum_map_zero_int (nodes : List Nat) : (nodes.map (fun _ => (0 : Int))).sum = 0 := by
  induction nodes <;> simp_all

/-- Summing `if m = n then f n else 0` over a duplicate-free list containing
`m` picks out `f m`. -/
lemma sum_map_single_int (f : Nat → Int) (m : Nat) :
    ∀ nodes : List Nat, nodes.Nodup → m ∈ nodes →
      (nodes.map (fun n => if m = n then f n else 0)).sum = f m := by
  intro nodes
  induction nodes with
  | nil => intro _ h; cases h
  | cons a t ih =>
    intro hnd hm
    have hnd' := hnd
    rw [List.nodup_cons] at hnd'
    rcases List.mem_cons.mp hm with h | h
    · subst h
      have hz : (t.map (fun n => if m = n then f n else 0)).sum = 0 := by
        have : ∀ n ∈ t, (if m = n then f n else 0) = 0 := by
          intro n hn
          rw [if_neg]
          intro he
          exact hnd'.1 (he ▸ hn)
        calc (t.map (fun n => if m = n then f n else 0)).sum
            = (t.map (fun _ => (0 : Int))).sum := by
              congr 1; exact List.map_congr_left this
          _ = 0 := sum_map_zero_int t
      simp [hz]
    · have hne : m ≠ a := by
        intro he; exact hnd'.1 (he ▸ h)
      simp only [List.map_cons, List.sum_cons, if_neg hne, zero_add]
      exact ih hnd'.2 h

/-- Claim C4: the per-node objective coefficients of the simplex layering ILP
(outgoing link counts minus incoming link counts) make the maximized
objective equal, for every layer assignment and every duplicate-free node
list containing all link endpoints, to the negation of the total weighted
edge span; maximizing the objective therefore minimizes the span. -/
theorem simplex_objective_eq_neg_totalSpan (nodes : List Nat) (links : List SLink)
    (x : Nat → Int) (hnd : nodes.Nodup)
    (hmem : ∀ l ∈ links, l.source ∈ nodes ∧ l.target ∈ nodes) :
    simplexObjective nodes links x = - totalSpan links x := by
  induction links with
  | nil =>
    have h0 : ∀ n ∈ nodes, optCoeff [] n * x n = 0 := by
      intro n _; simp [optCoeff]
    simp only [simplexObjective, totalSpan, List.map_nil, List.sum_nil, neg_zero]
    calc (nodes.map (fun n => optCoeff [] n * x n)).sum
        = (nodes.map (fun _ => (0 : Int))).sum := by
          congr 1; exact List.map_congr_left h0
      _ = 0 := sum_map_zero_int nodes
  | cons l ls ih =>
    have hl := hmem l (List.mem_cons_self l ls)
    have hrest : ∀ l' ∈ ls, l'.source ∈ nodes ∧ l'.target ∈ nodes :=
      fun l' h => hmem l' (List.mem_cons_of_mem l h)
    have hsplit : simplexObjective nodes (l :: ls) x
        = (nodes.map (fun n => (if l.source = n then (l.count : Int) else 0) * x n)).sum
          - (nodes.map (fun n => (if l.target = n then (l.count : Int) else 0) * x n)).sum
          + simplexObjective nodes ls x := by
      simp only [simplexObjective]
      have hco : ∀ n, optCoeff (l :: ls) n
          = ((if l.source = n then (l.count : Int) else 0)
              - (if l.target = n then (l.count : Int) else 0)) + optCoeff ls n := by
        intro n; simp [optCoeff]
      calc (nodes.map (fun n => optCoeff (l :: ls) n * x n)).sum
          = (nodes.map (fun n =>
              ((if l.source = n then (l.count : Int) else 0) * x n
                - (if l.target = n then (l.count : Int) else 0) * x n)
              + optCoeff ls n * x n)).sum := by
            congr 1
            refine List.map_congr_left (fun n _ => ?_)
            rw [hco n]; ring
        _ = (nodes.map (fun n =>
              (if l.source = n then (l.count : Int) else 0) * x n
                - (if l.target = n then (l.count : Int) else 0) * x n)).sum
            + (nodes.map (fun n => optCoeff ls n * x n)).sum := by
            exact sum_map_add_int nodes _ _
        _ = _ := by
            rw [sum_map_sub_int nodes _ _]
    have hsrc : (nodes.map (fun n => (if l.source = n then (l.count : Int) else 0) * x n)).sum
        = (l.count : Int) * x l.source := by
      have := sum_map_single_int (fun n => (l.count : Int) * x n) l.source nodes hnd hl.1
      calc (nodes.map (fun n => (if l.source = n then (l.count : Int) else 0) * x n)).sum
          = (nodes.map (fun n => if l.source = n then (l.count : Int) * x n else 0)).sum := by
            congr 1
            refine List.map_congr_left (fun n _ => ?_)
            by_cases h : l.source = n <;> simp [h]
        _ = (l.count : Int) * x l.source := this
    have htgt : (nodes.map (fun n => (if l.target = n then (l.count : Int) else 0) * x n)).sum
        = (l.count : Int) * x l.target := by
      have := sum_map_single_int (fun n => (l.count : Int) * x n) l.target nodes hnd hl.2
      calc (nodes.map (fun n => (if l.target = n then (l.count : Int) else 0) * x n)).sum
          = (nodes.map (fun n => if l.target = n then (l.count : Int) * x n else 0)).sum := by
            congr 1
            refine List.map_congr_left (fun n _ => ?_)
            by_cases h : l.target = n <;> simp [h]
        _ = (l.count : Int) * x l.target := this
    have hspan : totalSpan (l :: ls) x
        = (x l.target - x l.source) * (l.count : Int) + totalSpan ls x := by
      simp [totalSpan]
    rw [hsplit, hsrc, htgt, ih hrest, hspan]
    ring

/-- Witness for C4 at a concrete graph: nodes 0,1 with one link 0 → 1 of
count 3 and layers x n = n. -/
theorem simplex_objective_eq_neg_totalSpan_witness :
    simplexObjective [0, 1] [⟨0, 1, 3⟩] (fun n => (n : Int))
      = - totalSpan [⟨0, 1, 3⟩] (fun n => (n : Int)) :=
  simplex_objective_eq_neg_totalSpan [0, 1] [⟨0, 1, 3⟩] (fun n => (n : Int))
    (by decide) (by decide)

/-! ## Simplex layering: operator record and error branch

The fluent operator is embedded as its options record.  The rank accessor
returns an optional rank, the group accessor an optional group name, both
`undefined` (`none`) by default.  The ILP solver imported from
`../../simplex` is not part of the sources; it is passed as an oracle:
`none` stands for a solver exception, `some a` for a returned (partial)
assignment keyed by node id. -/

/-- Options record of the simplex layering operator. -/
structure SimplexLayerOps where
  rank : Nat → Option Int
  group : Nat → Option String

/-- The default simplex layering operator: rank and group accessors always
return `undefined`. -/
def simplexLayerDefault : SimplexLayerOps where
  rank := fun _ => none
  group := fun _ => none

/-- The fluent `rank` setter: builds a new operator from a copy of the
options with the new rank accessor. -/
def SimplexLayerOps.rankSet (o : SimplexLayerOps) (newRank : Nat → Option Int) :
    SimplexLayerOps :=
  { o with rank := newRank }

/-- The dag as the layering operator sees it: node ids and links. -/
structure SimplexGraph where
  nodes : List Nat
  links : List SLink

/-- The `ranks` list collected in the operator's first loop: one entry per
node whose rank accessor returns a defined value. -/
def collectRanks (o : SimplexLayerOps) (g : SimplexGraph) : List (Int × Nat) :=
  g.nodes.filterMap (fun n => (o.rank n).map (fun r => (r, n)))

/-- The group memberships collected in the operator's first loop: one entry
per node whose group accessor returns a defined value (the `groups` map is
non-empty exactly when this list is non-empty). -/
def collectGroups (o : SimplexLayerOps) (g : SimplexGraph) : List (String × Nat) :=
  g.nodes.filterMap (fun n => (o.group n).map (fun gr => (gr, n)))

/-- Errors of the simplex layering call: the ill-defined-constraints error
thrown after the failed-solve assertion, and the assertion failure itself
(`assert(ranks.length || groups.size)` throwing when no constraints exist). -/
inductive SimplexLayerError where
  | illDefinedConstraints
  | assertionFailure
deriving DecidableEq, Repr

/-- The solve-and-assign tail of `simplexCall`: on solver success every node
receives the solver's value with `0` for nodes the solver left unassigned
(`assignment[n(node)] ?? 0`); on solver failure the code asserts that rank
or group constraints exist and then raises the ill-defined error. -/
def simplexCall (solver : Option (Nat → Option Int)) (o : SimplexLayerOps)
    (g : SimplexGraph) : Except SimplexLayerError (Nat → Int) :=
  match solver with
  | some assignment => .ok (fun n => (assignment n).getD 0)
  | none =>
      if collectRanks o g ≠ [] ∨ collectGroups o g ≠ [] then
        .error .illDefinedConstraints
      else
        .error .assertionFailure

lemma filterMap_ne_nil_iff {α β : Type} (f : α → Option β) (l : List α) :
    l.filterMap f ≠ [] ↔ ∃ a ∈ l, f a ≠ none := by
  induction l with
  | nil => simp
  | cons a t ih =>
    rcases h : f a with _ | b
    · simp [List.filterMap_cons, h, ih]
    · simp [List.filterMap_cons, h]

lemma collectRanks_ne_nil (o : SimplexLayerOps) (g : SimplexGraph) :
    collectRanks o g ≠ [] ↔ ∃ n ∈ g.nodes, o.rank n ≠ none := by
  rw [collectRanks, filterMap_ne_nil_iff]
  constructor
  · rintro ⟨n, hn, h⟩
    exact ⟨n, hn, fun he => h (by simp [he])⟩
  · rintro ⟨n, hn, h⟩
    refine ⟨n, hn, fun he => h ?_⟩
    cases hr : o.rank n
    · rfl
    · rw [hr] at he; simp at he

lemma collectGroups_ne_nil (o : SimplexLayerOps) (g : SimplexGraph) :
    collectGroups o g ≠ [] ↔ ∃ n ∈ g.nodes, o.group n ≠ none := by
  rw [collectGroups, filterMap_ne_nil_iff]
  constructor
  · rintro ⟨n, hn, h⟩
    exact ⟨n, hn, fun he => h (by simp [he])⟩
  · rintro ⟨n, hn, h⟩
    refine ⟨n, hn, fun he => h ?_⟩
    cases hr : o.group n
    · rfl
    · rw [hr] at he; simp at he

/-- Claim C5: the ill-defined-constraints error is raised exactly when the
solver oracle fails and some node has a defined rank or group; it can only
arise from a failed solve; with the default (always-undefined) rank and
group accessors it is never raised; and after a successful solve every node
the solver left unassigned receives layer 0. -/
theorem simplexCall_illDefined_behavior (o : SimplexLayerOps) (g : SimplexGraph) :
    (simplexCall none o g = .error .illDefinedConstraints ↔
      (∃ n ∈ g.nodes, o.rank n ≠ none) ∨ (∃ n ∈ g.nodes, o.group n ≠ none))
    ∧ (∀ solver, simplexCall solver o g = .error .illDefinedConstraints → solver = none)
    ∧ (∀ solver, simplexCall solver simplexLayerDefault g ≠ .error .illDefinedConstraints)
    ∧ (∀ a, simplexCall (some a) o g = .ok (fun n => (a n).getD 0)) := by
  refine ⟨?_, ?_, ?_, fun a => rfl⟩
  · rw [← collectRanks_ne_nil, ← collectGroups_ne_nil]
    simp only [simplexCall]
    by_cases h : collectRanks o g ≠ [] ∨ collectGroups o g ≠ []
    · simp [h]
    · simp [h]
  · intro solver h
    cases solver with
    | none => rfl
    | some a => simp [simplexCall] at h
  · intro solver h
    cases solver with
    | some a => simp [simplexCall] at h
    | none =>
      have hr : collectRanks simplexLayerDefault g = [] := by
        simp [collectRanks, simplexLayerDefault]
      have hg : collectGroups simplexLayerDefault g = [] := by
        simp [collectGroups, simplexLayerDefault]
      rw [simplexCall, if_neg (by simp [hr, hg])] at h
      exact SimplexLayerError.noConfusion (Except.error.inj h)

/-! ## Longest-path layering (layering/longest-path)

`longestPathCall` walks the dag in a topological traversal.  Top-down, a
node's layer is the maximum of 0 and, over its parents, the parent's layer
plus the span (2 for a multi-edge, 1 otherwise).  Bottom-up, the mirror
value is computed from the children in a reverse traversal together with
the running maximum, and every node then receives `maxHeight - value`.
The traversal order is passed in explicitly: the source obtains it from
`idescendants("before")` (parents before children) respectively
`idescendants("after")` (children before parents). -/

/-- The span a link contributes in longest-path layering: 2 for a
multi-edge, 1 otherwise. -/
def lpSpan (count : Nat) : Nat := if count > 1 then 2 else 1

/-- The maximum of a list of naturals and 0, as `Math.max(0, ...terms)`. -/
def lpMax (terms : List Nat) : Nat := terms.foldr max 0

/-- The candidate layers a node's parents impose: for every link into the
node, the parent's current value plus the link's span. -/
def parentTerms (links : List SLink) (v : Nat → Nat) (n : Nat) : List Nat :=
  (links.filter (fun l => l.target = n)).map (fun l => v l.source + lpSpan l.count)

/-- The candidate values a node's children impose in the bottom-up pass. -/
def childTerms (links : List SLink) (v : Nat → Nat) (n : Nat) : List Nat :=
  (links.filter (fun l => l.source = n)).map (fun l => v l.target + lpSpan l.count)

/-- The top-down loop: each node of the traversal in turn receives
`max(0, ...parents' value + span)`. -/
def lpTopDownAux (links : List SLink) (v : Nat → Nat) : List Nat → Nat → Nat
  | [] => v
  | n :: rest =>
      lpTopDownAux links (fun m => if m = n then lpMax (parentTerms links v n) else v m) rest

/-- Top-down longest-path layering over a traversal with parents first. -/
def lpTopDown (links : List SLink) (order : List Nat) : Nat → Nat :=
  lpTopDownAux links (fun _ => 0) order

/-- The bottom-up loop: each node of the reverse traversal receives
`max(0, ...children's value + span)` while the running maximum height is
tracked. -/
def lpBottomUpAux (links : List SLink) (v : Nat → Nat) (maxHeight : Nat) :
    List Nat → (Nat → Nat) × Nat
  | [] => (v, maxHeight)
  | n :: rest =>
      lpBottomUpAux links
        (fun m => if m = n then lpMax (childTerms links v n) else v m)
        (max maxHeight (lpMax (childTerms links v n))) rest

/-- Bottom-up longest-path layering over a traversal with children first:
after the mirror pass, every node receives `maxHeight - value`. -/
def lpBottomUp (links : List SLink) (order : List Nat) : Nat → Nat :=
  let s := lpBottomUpAux links (fun _ => 0) 0 order
  fun n => s.2 - s.1 n

/-- The longest-path layering call, dispatching on the `topDown` option. -/
def longestPathCall (topDown : Bool) (links : List SLink) (order : List Nat) :
    Nat → Nat :=
  if topDown then lpTopDown links order else lpBottomUp links order

lemma lpTopDownAux_not_mem (links : List SLink) :
    ∀ (order : List Nat) (v : Nat → Nat) (n : Nat), n ∉ order →
      lpTopDownAux links v order n = v n := by
  intro order
  induction order with
  | nil => intro v n _; rfl
  | cons a rest ih =>
    intro v n hn
    have hna : n ≠ a := fun he => hn (he ▸ List.mem_cons_self a rest)
    have hnr : n ∉ rest := fun h => hn (List.mem_cons_of_mem a h)
    rw [lpTopDownAux, ih _ n hnr, if_neg hna]

lemma lpTopDownAux_root (links : List SLink) :
    ∀ (order : List Nat) (v : Nat → Nat) (n : Nat), n ∈ order →
      links.filter (fun l => l.target = n) = [] →
      lpTopDownAux links v order n = 0 := by
  intro order
  induction order with
  | nil => intro v n h; cases h
  | cons a rest ih =>
    intro v n hn hroot
    by_cases hr : n ∈ rest
    · exact ih _ n hr hroot
    · have hna : n = a := by
        rcases List.mem_cons.mp hn with h | h
        · exact h
        · exact absurd h hr
      subst hna
      rw [lpTopDownAux, lpTopDownAux_not_mem links rest _ n hr, if_pos rfl]
      simp [parentTerms, hroot, lpMax]

lemma lpBottomUpAux_not_mem (links : List SLink) :
    ∀ (order : List Nat) (v : Nat → Nat) (mh : Nat) (n : Nat), n ∉ order →
      (lpBottomUpAux links v mh order).1 n = v n := by
  intro order
  induction order with
  | nil => intro v mh n _; rfl
  | cons a rest ih =>
    intro v mh n hn
    have hna : n ≠ a := fun he => hn (he ▸ List.mem_cons_self a rest)
    have hnr : n ∉ rest := fun h => hn (List.mem_cons_of_mem a h)
    rw [lpBottomUpAux, ih _ _ n hnr, if_neg hna]

lemma lpBottomUpAux_leaf (links : List SLink) :
    ∀ (order : List Nat) (v : Nat → Nat) (mh : Nat) (n : Nat), n ∈ order →
      links.filter (fun l => l.source = n) = [] →
      (lpBottomUpAux links v mh order).1 n = 0 := by
  intro order
  induction order with
  | nil => intro v mh n h; cases h
  | cons a rest ih =>
    intro v mh n hn hleaf
    by_cases hr : n ∈ rest
    · exact ih _ _ n hr hleaf
    · have hna : n = a := by
        rcases List.mem_cons.mp hn with h | h
        · exact h
        · exact absurd h hr
      subst hna
      rw [lpBottomUpAux, lpBottomUpAux_not_mem links rest _ _ n hr, if_pos rfl]
      simp [childTerms, hleaf, lpMax]

/-- Claim C6: under top-down longest-path layering every node with no
incoming link gets layer 0, and under bottom-up layering (children-first
traversal) every node with no outgoing link gets a layer at least as large
as every other node's, i.e. the maximum layer. -/
theorem longestPath_root_zero_leaf_max (links : List SLink) (order : List Nat)
    (n : Nat) (hmem : n ∈ order) :
    (links.filter (fun l => l.target = n) = [] →
      longestPathCall true links order n = 0)
    ∧ (links.filter (fun l => l.source = n) = [] →
      ∀ m, longestPathCall false links order m ≤ longestPathCall false links order n) := by
  constructor
  · intro hroot
    rw [longestPathCall, if_pos rfl, lpTopDown]
    exact lpTopDownAux_root links order _ n hmem hroot
  · intro hleaf m
    rw [longestPathCall, if_neg (by simp), lpBottomUp]
    have hn0 : (lpBottomUpAux links (fun _ => 0) 0 order).1 n = 0 :=
      lpBottomUpAux_leaf links order _ 0 n hmem hleaf
    simp only [hn0, Nat.sub_zero]
    exact Nat.sub_le _ _

/-- Witness for C6 on the chain 0 → 1 → 2 (single edges, traversal 0,1,2 for
top-down and 2,1,0 for bottom-up): the root 0 gets layer 0 top-down, and
bottom-up the leaf 2's layer is at least the layer of node 1. -/
theorem longestPath_root_zero_leaf_max_witness :
    longestPathCall true [⟨0, 1, 1⟩, ⟨1, 2, 1⟩] [0, 1, 2] 0 = 0
    ∧ longestPathCall false [⟨0, 1, 1⟩, ⟨1, 2, 1⟩] [2, 1, 0] 1
        ≤ longestPathCall false [⟨0, 1, 1⟩, ⟨1, 2, 1⟩] [2, 1, 0] 2 :=
  ⟨(longestPath_root_zero_leaf_max [⟨0, 1, 1⟩, ⟨1, 2, 1⟩] [0, 1, 2] 0
      (by decide)).1 (by decide),
   (longestPath_root_zero_leaf_max [⟨0, 1, 1⟩, ⟨1, 2, 1⟩] [2, 1, 0] 2
      (by decide)).2 (by decide) 1⟩

/-! ## Optimal decrossing (decross/opt): size gate and `large` setter

For the size gate a layer is abstracted to the list of its nodes' child
counts (`ichildren().length` per node): `numVars` only needs each layer's
length and `numEdges` sums the child counts. -/

/-- The three settings of the opt decross size gate. -/
inductive LargeHandling where
  | small
  | medium
  | large
deriving DecidableEq, Repr

/-- Options record of the optimal decrossing operator. -/
structure OptOps where
  large : LargeHandling
deriving DecidableEq, Repr

/-- The default opt decross operator. -/
def optDefault : OptOps where
  large := .small

/-- The fluent `large` setter of the opt decross operator. -/
def OptOps.largeSet (o : OptOps) (val : LargeHandling) : OptOps :=
  { o with large := val }

/-- The number of pairwise ordering variables of a layered input:
`reduce((t, l) => t + (l.length * max(l.length - 1, 0)) / 2, 0)`. -/
def numVars (layers : List (List Nat)) : Nat :=
  layers.foldl (fun t l => t + l.length * (l.length - 1) / 2) 0

/-- The number of edges of a layered input: the sum over all layers of every
node's child count. -/
def numEdges (layers : List (List Nat)) : Nat :=
  layers.foldl (fun t l => t + l.foldl (fun s n => s + n) 0) 0

/-- The two messages the gate can fail with. -/
inductive OptGateError where
  | needLarge
  | needMedium
deriving DecidableEq, Repr

/-- The size gate at the top of `optCall`: with anything but `large`, more
than 1200 ordering variables fail; with `small` (neither `large` nor
`medium`), more than 400 ordering variables or more than 100 edges also
fail. -/
def optCallSizeGate (largeOpt : LargeHandling) (layers : List (List Nat)) :
    Except OptGateError Unit :=
  if largeOpt ≠ .large ∧ numVars layers > 1200 then
    .error .needLarge
  else if largeOpt ≠ .large ∧ largeOpt ≠ .medium
      ∧ (numVars layers > 400 ∨ numEdges layers > 100) then
    .error .needMedium
  else
    .ok ()

/-- Claim C3 counterexample input: two layers of 11 nodes forming a complete
bipartite graph (each top node has 11 children), so 110 ordering variables
but 121 edges. -/
def gateCounterLayers : List (List Nat) :=
  [List.replicate 11 11, List.replicate 11 0]

/-- Claim C3 counterexample: on a layered input with only 110 ≤ 400 ordering
variables the default `small` gate nevertheless raises the size error,
because its edge count 121 exceeds 100; so the gate does not fire exactly
when the ordering-variable total exceeds 400. -/
theorem optCallSizeGate_small_not_vars_only :
    numVars gateCounterLayers = 110
    ∧ numEdges gateCounterLayers = 121
    ∧ optCallSizeGate .small gateCounterLayers = .error .needMedium :=
  ⟨rfl, rfl, rfl⟩

/-- Claim C3 (amended): the gate fails under `small` exactly when the number
of ordering variables exceeds 400 or the number of edges exceeds 100, under
`medium` exactly when the ordering variables exceed 1200, and never under
`large`. -/
theorem optCallSizeGate_characterization (layers : List (List Nat)) :
    (optCallSizeGate .small layers = .ok ()
      ↔ numVars layers ≤ 400 ∧ numEdges layers ≤ 100)
    ∧ (optCallSizeGate .medium layers = .ok () ↔ numVars layers ≤ 1200)
    ∧ optCallSizeGate .large layers = .ok () := by
  refine ⟨?_, ?_, ?_⟩
  · simp only [optCallSizeGate, ne_eq, reduceCtorEq, not_false_eq_true, true_and]
    split_ifs with h1 h2
    · simp only [reduceCtorEq, false_iff]
      omega
    · simp only [reduceCtorEq, false_iff]
      omega
    · simp only [true_iff]
      omega
  · simp only [optCallSizeGate, ne_eq, reduceCtorEq, not_false_eq_true, true_and,
      not_true_eq_false, false_and, if_false]
    split_ifs with h1
    · simp only [reduceCtorEq, false_iff]
      omega
    · simp only [true_iff]
      omega
  · simp [optCallSizeGate]

/-! ## Quadratic coordinate operator (coord/quad): curve setter and getter

Weight accessors are either const accessors (built by `createConstAccessor`,
carrying their `value` field, which is what `isConstAccessor` detects) or
arbitrary functions of the node or link (keyed here by id). -/

/-- A node or link weight accessor of the quad operator. -/
inductive QuadWeightAcc where
  | constAcc (value : ℚ)
  | fnAcc (f : Nat → ℚ)

/-- `createConstAccessor`: rejects a negative value, otherwise returns a
const accessor carrying the value. -/
def createConstAccessor (value : ℚ) : Except String QuadWeightAcc :=
  if value < 0 then .error "const accessors should return non-negative values"
  else .ok (.constAcc value)

/-- `isConstAccessor`: whether the accessor carries a numeric `value`. -/
def isConstAccessor : QuadWeightAcc → Bool
  | .constAcc _ => true
  | .fnAcc _ => false

/-- Options record of the quad operator. -/
structure QuadOps where
  vertWeak : QuadWeightAcc
  vertStrong : QuadWeightAcc
  linkCurve : QuadWeightAcc
  nodeCurve : QuadWeightAcc
  comp : ℚ

/-- The default quad operator built by `quad()`. -/
def quadDefault : QuadOps where
  vertWeak := .constAcc 1
  vertStrong := .constAcc 0
  linkCurve := .constAcc 1
  nodeCurve := .constAcc 0
  comp := 1

/-- The `curve([a, b])` setter: rejects negative weights, otherwise builds a
new operator whose `linkCurve` is a const accessor of the second element and
whose `nodeCurve` is a const accessor of the first element. -/
def QuadOps.curveSet (o : QuadOps) (val : ℚ × ℚ) : Except String QuadOps :=
  let curveNode := val.1
  let curveDummy := val.2
  if curveNode < 0 ∨ curveDummy < 0 then
    .error "weights must be non-negative"
  else
    match createConstAccessor curveDummy, createConstAccessor curveNode with
    | .ok lc, .ok nc => .ok { o with linkCurve := lc, nodeCurve := nc }
    | .error e, _ => .error e
    | .ok _, .error e => .error e

/-- The `curve()` getter: when both curve accessors are const accessors it
returns the pair `[nodeCurve.value, linkCurve.value]`, otherwise null. -/
def QuadOps.curveGet (o : QuadOps) : Option (ℚ × ℚ) :=
  match o.nodeCurve, o.linkCurve with
  | .constAcc nv, .constAcc lv => some (nv, lv)
  | _, _ => none

/-- Claim C7: for non-negative a and b, `curve([a, b])` succeeds and installs
a constant nodeCurve accessor with value a and a constant linkCurve accessor
with value b, and the getter on the new operator returns `[a, b]` (nodeCurve
value first), so the setter/getter round-trip is the identity on
non-negative pairs. -/
theorem quad_curve_set_get_roundtrip (o : QuadOps) (a b : ℚ)
    (ha : 0 ≤ a) (hb : 0 ≤ b) :
    ∃ o2, o.curveSet (a, b) = .ok o2
      ∧ o2.nodeCurve = .constAcc a
      ∧ o2.linkCurve = .constAcc b
      ∧ o2.curveGet = some (a, b) := by
  refine ⟨{ o with linkCurve := .constAcc b, nodeCurve := .constAcc a }, ?_, rfl, rfl, rfl⟩
  rw [QuadOps.curveSet]
  simp only [createConstAccessor, if_neg (not_lt.mpr hb), if_neg (not_lt.mpr ha)]
  rw [if_neg]
  push_neg
  exact ⟨ha, hb⟩

/-- Witness for C7 at the default quad operator and the pair (2, 3). -/
theorem quad_curve_set_get_roundtrip_witness :
    ∃ o2, quadDefault.curveSet (2, 3) = .ok o2
      ∧ o2.nodeCurve = .constAcc 2
      ∧ o2.linkCurve = .constAcc 3
      ∧ o2.curveGet = some (2, 3) :=
  quad_curve_set_get_roundtrip quadDefault 2 3 (by norm_num) (by norm_num)

/-! ## Sugiyama orchestrator: defaults, node size, setters

The fluent sugiyama operator is embedded as its options record.  The three
stage operators it stores are tagged by which constructor built them,
carrying that operator's own options; the coordinate simplex operator's
internals live in `coord/simplex` outside the given sources, so its tag
carries no payload. -/

/-- Data carried by a sugi node: a real node wraps a user node, a dummy node
stands for one interior waypoint of a long edge and carries its link. -/
inductive SugiData where
  | real (node : DagNode)
  | dummy (link : SLink)

/-- `defaultNodeSize`: `[+(node !== undefined), 1]`, that is width 1 for a
real (defined) node and 0 for a dummy (undefined) node, and height 1 for
both. -/
def defaultNodeSize (node : Option DagNode) : ℚ × ℚ :=
  (if node.isSome then 1 else 0, 1)

/-- `wrapNodeSizeAccessor`: evaluates the plain accessor once at `undefined`
for the dummy size, then sizes a sugi node by its wrapped node for real
nodes and by the dummy size otherwise. -/
def wrapNodeSizeAccessor (acc : Option DagNode → ℚ × ℚ) : SugiData → ℚ × ℚ :=
  let empty := acc none
  fun data =>
    match data with
    | .real n => acc (some n)
    | .dummy _ => empty

/-- A layering operator value: which constructor built it and its options. -/
inductive LayeringOp where
  | simplexLayering (ops : SimplexLayerOps)
  | longestPathLayering (topDown : Bool)

/-- A decrossing operator value. -/
inductive DecrossOp where
  | twoLayer
  | optDecross (ops : OptOps)

/-- A coordinate operator value: `coordSimplex` is the operator built by
`simplex()` from `coord/simplex`, `quadCoord` the one built by `quad()`. -/
inductive CoordOp where
  | coordSimplex
  | quadCoord (ops : QuadOps)
  | center
  | greedy

/-- Whether a coordinate operator is the quadratic one. -/
def CoordOp.isQuad : CoordOp → Bool
  | .quadCoord _ => true
  | _ => false

/-- Options record of the sugiyama operator. -/
structure SugiyamaOps where
  layering : LayeringOp
  decross : DecrossOp
  coord : CoordOp
  size : Option (ℚ × ℚ)
  nodeSize : Option (Option DagNode → ℚ × ℚ)
  sugiNodeSize : SugiData → ℚ × ℚ

/-- The operator `sugiyama()` builds: simplex layering, two-layer
decrossing, the coordinate simplex operator, no target size, and the
default node size accessor (plain and wrapped). -/
def sugiyamaDefault : SugiyamaOps where
  layering := .simplexLayering simplexLayerDefault
  decross := .twoLayer
  coord := .coordSimplex
  size := none
  nodeSize := some defaultNodeSize
  sugiNodeSize := wrapNodeSizeAccessor defaultNodeSize

/-- The fluent `size` setter of the sugiyama operator: builds a new operator
from a copy of the options with the new size. -/
def SugiyamaOps.sizeSet (o : SugiyamaOps) (sz : Option (ℚ × ℚ)) : SugiyamaOps :=
  { o with size := sz }

/-- Claim C1 counterexample: the default coordinate operator of `sugiyama()`
is the coordinate simplex operator, not the quadratic one. -/
theorem sugiyama_default_coord_not_quad :
    sugiyamaDefault.coord = CoordOp.coordSimplex
    ∧ CoordOp.isQuad sugiyamaDefault.coord = false :=
  ⟨rfl, rfl⟩

/-- Claim C1 (amended): the layout operator constructed with no
configuration uses the coordinate simplex assigner as its default coord
operator for step 3. -/
theorem sugiyama_default_coord_simplex :
    sugiyamaDefault.coord = CoordOp.coordSimplex :=
  rfl

/-- Claim C2: the default nodeSize accessor evaluated at the failing input.
It returns (1, 1) for a real node as claimed, but (0, 1) — not (0, 0) — for
a dummy (undefined) node, both directly and through the wrapped sugi
accessor. -/
theorem defaultNodeSize_dummy_values :
    defaultNodeSize (some ⟨0⟩) = (1, 1)
    ∧ defaultNodeSize none = (0, 1)
    ∧ wrapNodeSizeAccessor defaultNodeSize (.dummy ⟨0, 1, 1⟩) = (0, 1) :=
  ⟨rfl, rfl, rfl⟩

/-- Claim C8: each configuration setter builds a fresh operator carrying
the new value: the new operator returns the new value from its getter,
every other configuration field is taken unchanged from the original, and
when the value actually changes the result is a different operator value
altogether (the original, being a plain record the setter only copies,
still returns its previous value).  Stated for sugiyama's `size`, simplex
layering's `rank` and opt decross's `large`. -/
theorem setters_build_independent_operators (o : SugiyamaOps) (sz : Option (ℚ × ℚ))
    (o2 : SimplexLayerOps) (r : Nat → Option Int) (o3 : OptOps) (v : LargeHandling) :
    ((o.sizeSet sz).size = sz
      ∧ (o.sizeSet sz).layering = o.layering
      ∧ (o.sizeSet sz).decross = o.decross
      ∧ (o.sizeSet sz).coord = o.coord
      ∧ (o.sizeSet sz).nodeSize = o.nodeSize
      ∧ (o.sizeSet sz).sugiNodeSize = o.sugiNodeSize
      ∧ (sz ≠ o.size → o.sizeSet sz ≠ o))
    ∧ ((o2.rankSet r).rank = r
      ∧ (o2.rankSet r).group = o2.group
      ∧ (r ≠ o2.rank → o2.rankSet r ≠ o2))
    ∧ ((o3.largeSet v).large = v
      ∧ (v ≠ o3.large → o3.largeSet v ≠ o3)) := by
  refine ⟨⟨rfl, rfl, rfl, rfl, rfl, rfl, ?_⟩, ⟨rfl, rfl, ?_⟩, ⟨rfl, ?_⟩⟩
  · intro h heq
    exact h (congrArg SugiyamaOps.size heq)
  · intro h heq
    exact h (congrArg SimplexLayerOps.rank heq)
  · intro h heq
    exact h (congrArg OptOps.large heq)

/-- Witness for C8: setting a size of (2, 3) on the default sugiyama
operator, a constant rank 1 on the default simplex layering operator and
`medium` on the default opt decross operator yields operators carrying the
new values while differing from the originals. -/
theorem setters_build_independent_operators_witness :
    (sugiyamaDefault.sizeSet (some (2, 3))).size = some (2, 3)
    ∧ sugiyamaDefault.sizeSet (some (2, 3)) ≠ sugiyamaDefault
    ∧ (simplexLayerDefault.rankSet (fun _ => some 1)).rank 0 = some 1
    ∧ simplexLayerDefault.rankSet (fun _ => some 1) ≠ simplexLayerDefault
    ∧ (optDefault.largeSet .medium).large = .medium
    ∧ optDefault.largeSet .medium ≠ optDefault := by
  have h := setters_build_independent_operators sugiyamaDefault (some (2, 3))
    simplexLayerDefault (fun _ => some 1) optDefault .medium
  refine ⟨h.1.1, h.1.2.2.2.2.2.2 (by simp [sugiyamaDefault]), ?_, ?_, h.2.2.1, ?_⟩
  · rw [h.2.1.1]
  · refine h.2.1.2.2 ?_
    intro he
    have := congrFun he 0
    simp [simplexLayerDefault] at this
  · refine h.2.2.2 ?_
    simp [optDefault]

/-! ## Stratify builder (dag/stratify)

`stratify` first refuses empty data, then walks the data once building the
id → (node, parent data) mapping and refusing a duplicate id, then walks
the mapping resolving every referenced parent id and refusing an unknown
one while pushing child links, and finally validates the connected dag
(`verifyDag`, an external collaborator from `dag/verify`, passed as a
boolean oracle over the built mapping and roots; `verifyId` from the same
module is modelled as the identity on ids). -/

/-- Errors of the stratify call. -/
inductive StratifyError where
  | emptyData
  | duplicateId (id : String)
  | missingId (id : String)
  | invalidGraph
deriving DecidableEq, Repr

/-- The first loop of `stratify`: ids and parent data are computed in data
order, and a datum whose id is already in the mapping fails with the
duplicate-id error. -/
def stratifyLoopOne {D L : Type} (idOp : D → Nat → String)
    (parentDataOp : D → Nat → List (String × L)) :
    List D → Nat → List (String × List (String × L)) →
      Except StratifyError (List (String × List (String × L)))
  | [], _, mapping => .ok mapping
  | datum :: rest, i, mapping =>
      let id := idOp datum i
      let pdata := parentDataOp datum i
      if id ∈ mapping.map Prod.fst then .error (.duplicateId id)
      else stratifyLoopOne idOp parentDataOp rest (i + 1) (mapping ++ [(id, pdata)])

/-- Every parent id referenced by the mapping, in the order the second loop
visits them. -/
def parentRefs {L : Type} (mapping : List (String × List (String × L))) : List String :=
  (mapping.map (fun e => e.2.map Prod.fst)).flatten

/-- The second loop's missing-parent check: the first referenced parent id
that is not a key of the mapping, if any. -/
def firstMissingFrom (keys : List String) : List String → Option String
  | [] => none
  | pid :: rest => if pid ∈ keys then firstMissingFrom keys rest else some pid

/-- The child links the second loop pushes onto a parent: for every mapping
entry in order, its id paired with the link datum of each of its parent-data
entries naming this parent. -/
def stratifyChildren {L : Type} (mapping : List (String × List (String × L)))
    (par : String) : List (String × L) :=
  (mapping.map (fun e => (e.2.filter (fun p => p.1 = par)).map (fun p => (e.1, p.2)))).flatten

/-- The dag `stratify` returns on success. -/
structure StratifyDag (L : Type) where
  ids : List String
  children : String → List (String × L)
  roots : List String

/-- The body of `stratify` on non-empty data. -/
def stratifyBody {D L : Type}
    (verifyDag : List (String × List (String × L)) → List String → Bool)
    (idOp : D → Nat → String) (parentDataOp : D → Nat → List (String × L))
    (data : List D) : Except StratifyError (StratifyDag L) :=
  match stratifyLoopOne idOp parentDataOp data 0 [] with
  | .error e => .error e
  | .ok mapping =>
      let keys := mapping.map Prod.fst
      match firstMissingFrom keys (parentRefs mapping) with
      | some pid => .error (.missingId pid)
      | none =>
          let roots := (mapping.filter (fun e => e.2.isEmpty)).map Prod.fst
          if verifyDag mapping roots then
            .ok { ids := keys, children := stratifyChildren mapping, roots := roots }
          else
            .error .invalidGraph

/-- The stratify call: empty data is refused outright, otherwise the two
loops run and the verified dag is returned. -/
def stratify {D L : Type}
    (verifyDag : List (String × List (String × L)) → List String → Bool)
    (idOp : D → Nat → String) (parentDataOp : D → Nat → List (String × L))
    (data : List D) : Except StratifyError (StratifyDag L) :=
  if data.isEmpty then .error .emptyData
  else stratifyBody verifyDag idOp parentDataOp data

/-- The ids the first loop computes, in data order. -/
def stratifyIds {D : Type} (idOp : D → Nat → String) : List D → Nat → List String
  | [], _ => []
  | d :: rest, i => idOp d i :: stratifyIds idOp rest (i + 1)

/-- The mapping entries the first loop accumulates, in data order. -/
def stratifyEntries {D L : Type} (idOp : D → Nat → String)
    (parentDataOp : D → Nat → List (String × L)) :
    List D → Nat → List (String × List (String × L))
  | [], _ => []
  | d :: rest, i => (idOp d i, parentDataOp d i) :: stratifyEntries idOp parentDataOp rest (i + 1)

lemma stratifyEntries_keys {D L : Type} (idOp : D → Nat → String)
    (parentDataOp : D → Nat → List (String × L)) :
    ∀ (data : List D) (i : Nat),
      (stratifyEntries idOp parentDataOp data i).map Prod.fst = stratifyIds idOp data i := by
  intro data
  induction data with
  | nil => intro i; rfl
  | cons d rest ih =>
    intro i
    simp only [stratifyEntries, stratifyIds, List.map_cons, ih]

lemma stratifyLoopOne_duplicate {D L : Type} (idOp : D → Nat → String)
    (parentDataOp : D → Nat → List (String × L)) :
    ∀ (data : List D) (i : Nat) (mapping : List (String × List (String × L))),
      (mapping.map Prod.fst).Nodup →
      ¬ (mapping.map Prod.fst ++ stratifyIds idOp data i).Nodup →
      ∃ s, stratifyLoopOne idOp parentDataOp data i mapping = .error (.duplicateId s) := by
  intro data
  induction data with
  | nil =>
    intro i mapping hkeys hdup
    refine absurd ?_ hdup
    rw [stratifyIds, List.append_nil]
    exact hkeys
  | cons d rest ih =>
    intro i mapping hkeys hdup
    by_cases hid : idOp d i ∈ mapping.map Prod.fst
    · exact ⟨idOp d i, by rw [stratifyLoopOne, if_pos hid]⟩
    · have hstep : stratifyLoopOne idOp parentDataOp (d :: rest) i mapping
          = stratifyLoopOne idOp parentDataOp rest (i + 1)
              (mapping ++ [(idOp d i, parentDataOp d i)]) := by
        rw [stratifyLoopOne, if_neg hid]
      have hkeys2 : ((mapping ++ [(idOp d i, parentDataOp d i)]).map Prod.fst).Nodup := by
        rw [List.map_append, List.nodup_append_comm]
        simp only [List.map_cons, List.map_nil, List.singleton_append, List.nodup_cons]
        exact ⟨hid, hkeys⟩
      have hdup2 : ¬ (((mapping ++ [(idOp d i, parentDataOp d i)]).map Prod.fst)
          ++ stratifyIds idOp rest (i + 1)).Nodup := by
        rw [List.map_append, List.append_assoc]
        simp only [List.map_cons, List.map_nil, List.singleton_append]
        rw [stratifyIds] at hdup
        exact hdup
      rw [hstep]
      exact ih (i + 1) _ hkeys2 hdup2

lemma stratifyLoopOne_success {D L : Type} (idOp : D → Nat → String)
    (parentDataOp : D → Nat → List (String × L)) :
    ∀ (data : List D) (i : Nat) (mapping : List (String × List (String × L))),
      (mapping.map Prod.fst ++ stratifyIds idOp data i).Nodup →
      stratifyLoopOne idOp parentDataOp data i mapping
        = .ok (mapping ++ stratifyEntries idOp parentDataOp data i) := by
  intro data
  induction data with
  | nil =>
    intro i mapping _
    simp [stratifyLoopOne, stratifyEntries]
  | cons d rest ih =>
    intro i mapping hnd
    have hid : idOp d i ∉ mapping.map Prod.fst := by
      rw [List.nodup_append] at hnd
      intro hmem
      exact hnd.2.2 hmem (by rw [stratifyIds]; exact List.mem_cons_self _ _)
    rw [stratifyLoopOne, if_neg hid]
    have hnd2 : (((mapping ++ [(idOp d i, parentDataOp d i)]).map Prod.fst)
        ++ stratifyIds idOp rest (i + 1)).Nodup := by
      rw [List.map_append, List.append_assoc]
      simp only [List.map_cons, List.map_nil, List.singleton_append]
      rw [stratifyIds] at hnd
      exact hnd
    rw [ih (i + 1) _ hnd2, List.append_assoc]
    rfl

lemma firstMissingFrom_some (keys : List String) :
    ∀ refs : List String, (∃ pid ∈ refs, pid ∉ keys) →
      ∃ s, firstMissingFrom keys refs = some s := by
  intro refs
  induction refs with
  | nil => rintro ⟨pid, h, _⟩; cases h
  | cons p rest ih =>
    rintro ⟨pid, hmem, hout⟩
    by_cases hp : p ∈ keys
    · rw [firstMissingFrom, if_pos hp]
      refine ih ⟨pid, ?_, hout⟩
      rcases List.mem_cons.mp hmem with h | h
      · exact absurd (h ▸ hp) hout
      · exact h
    · exact ⟨p, by rw [firstMissingFrom, if_neg hp]⟩


lemma stratify_duplicate_err {D L : Type}
    (verifyDag : List (String × List (String × L)) → List String → Bool)
    (idOp : D → Nat → String) (parentDataOp : D → Nat → List (String × L))
    (data : List D) (hdup : ¬ (stratifyIds idOp data 0).Nodup) :
    ∃ s, stratify verifyDag idOp parentDataOp data = .error (.duplicateId s) := by
  match data with
  | [] => simp [stratifyIds] at hdup
  | d :: rest =>
    obtain ⟨s, hs⟩ := stratifyLoopOne_duplicate idOp parentDataOp (d :: rest) 0 []
      (by simp) (by simpa using hdup)
    refine ⟨s, ?_⟩
    rw [stratify, if_neg (by simp), stratifyBody, hs]

lemma stratify_missing_err {D L : Type}
    (verifyDag : List (String × List (String × L)) → List String → Bool)
    (idOp : D → Nat → String) (parentDataOp : D → Nat → List (String × L))
    (data : List D) (hnd : (stratifyIds idOp data 0).Nodup)
    (hmiss : ∃ pid ∈ parentRefs (stratifyEntries idOp parentDataOp data 0),
      pid ∉ stratifyIds idOp data 0) :
    ∃ s, stratify verifyDag idOp parentDataOp data = .error (.missingId s) := by
  match data with
  | [] => simp [stratifyEntries, parentRefs] at hmiss
  | d :: rest =>
    have hok := stratifyLoopOne_success idOp parentDataOp (d :: rest) 0 []
      (by simpa using hnd)
    have hkeys := stratifyEntries_keys idOp parentDataOp (d :: rest) 0
    obtain ⟨s, hs⟩ := firstMissingFrom_some
      ((stratifyEntries idOp parentDataOp (d :: rest) 0).map Prod.fst)
      (parentRefs (stratifyEntries idOp parentDataOp (d :: rest) 0))
      (by rw [hkeys]; exact hmiss)
    refine ⟨s, ?_⟩
    rw [stratify, if_neg (by simp), stratifyBody, hok]
    simp only [List.nil_append]
    rw [hs]

/-- Claim C9: the stratify builder fails with the duplicate-id error when
two data elements produce the same id, fails with the missing-id error when
(ids being distinct) some datum references a parent id that no data element
produced, and in either situation never returns a dag. -/
theorem stratify_duplicate_and_missing_fail {D L : Type}
    (verifyDag : List (String × List (String × L)) → List String → Bool)
    (idOp : D → Nat → String) (parentDataOp : D → Nat → List (String × L))
    (data : List D) :
    (¬ (stratifyIds idOp data 0).Nodup →
      ∃ s, stratify verifyDag idOp parentDataOp data = .error (.duplicateId s))
    ∧ ((stratifyIds idOp data 0).Nodup →
      (∃ pid ∈ parentRefs (stratifyEntries idOp parentDataOp data 0),
        pid ∉ stratifyIds idOp data 0) →
      ∃ s, stratify verifyDag idOp parentDataOp data = .error (.missingId s))
    ∧ ((¬ (stratifyIds idOp data 0).Nodup
        ∨ ∃ pid ∈ parentRefs (stratifyEntries idOp parentDataOp data 0),
            pid ∉ stratifyIds idOp data 0) →
      ∀ dag, stratify verifyDag idOp parentDataOp data ≠ .ok dag) := by
  refine ⟨stratify_duplicate_err verifyDag idOp parentDataOp data,
    stratify_missing_err verifyDag idOp parentDataOp data, ?_⟩
  intro hbad dag hok
  rcases hbad with hdup | hmiss
  · obtain ⟨s, hs⟩ := stratify_duplicate_err verifyDag idOp parentDataOp data hdup
    rw [hs] at hok
    exact Except.noConfusion hok
  · by_cases hnd : (stratifyIds idOp data 0).Nodup
    · obtain ⟨s, hs⟩ := stratify_missing_err verifyDag idOp parentDataOp data hnd hmiss
      rw [hs] at hok
      exact Except.noConfusion hok
    · obtain ⟨s, hs⟩ := stratify_duplicate_err verifyDag idOp parentDataOp data hnd
      rw [hs] at hok
      exact Except.noConfusion hok

/-- Claim C10: calling stratify on an empty data array always fails with the
empty-data error, for every id accessor, parent-data accessor and dag
verifier; no dag is ever built from zero data elements. -/
theorem stratify_empty_data_err {D L : Type}
    (verifyDag : List (String × List (String × L)) → List String → Bool)
    (idOp : D → Nat → String) (parentDataOp : D → Nat → List (String × L)) :
    stratify verifyDag idOp parentDataOp ([] : List D) = .error .emptyData :=
  rfl
